import Mathlib

/-!
Verification of the Crawl4AI_PY link-state store, link extractor/filter and
crawl-frontier orchestrator (src/link_database.py, src/gradio_app.py),
as a shallow embedding in Lean 4.

Python string primitives (`str.strip`, `str.lower`, `in`, `split(',')`)
are re-implemented over `List Char` with Python semantics so that all
definitions are executable.
-/

/-- Python whitespace characters recognised by `str.strip` (ASCII range). -/
def py_space (c : Char) : Bool :=
  c = ' ' || c = '\t' || c = '\n' || c = '\x0d' || c = '\x0b' || c = '\x0c'

/-- Python `str.strip()`: drop whitespace from both ends. -/
def py_strip (s : String) : String :=
  String.mk (((s.toList.dropWhile py_space).reverse.dropWhile py_space).reverse)

/-- Python `str.lower()` (ASCII letters, which is all the sources use). -/
def py_lower (s : String) : String :=
  String.mk (s.toList.map Char.toLower)

/-- Does `needle` occur at the start of `hay`? -/
def list_starts : List Char → List Char → Bool
  | [], _ => true
  | _ :: _, [] => false
  | n :: ns, h :: hs => n = h && list_starts ns hs

/-- Does `needle` occur as a contiguous sublist of `hay`?  Python `needle in hay`. -/
def list_contains_sub (hay needle : List Char) : Bool :=
  match hay with
  | [] => list_starts needle []
  | _ :: hs => list_starts needle hay || list_contains_sub hs needle

/-- Python substring test `needle in hay` on strings. -/
def py_in (needle hay : String) : Bool :=
  list_contains_sub hay.toList needle.toList

/-- Python `s.split(',')` on character lists. -/
def split_comma : List Char → List (List Char)
  | [] => [[]]
  | c :: cs =>
    match split_comma cs with
    | [] => [[c]]
    | g :: gs => if c = ',' then [] :: g :: gs else (c :: g) :: gs

/-- `url.split('#', 1)[0]`: the part of the URL before the first `#`. -/
def drop_fragment (u : String) : String :=
  String.mk (u.toList.takeWhile (fun c => ¬ (c = '#')))

/-- One step of `dict.fromkeys` deduplication: append `u` unless seen. -/
def dedup_step (acc : List String) (u : String) : List String :=
  if u ∈ acc then acc else acc ++ [u]

/-- `list(dict.fromkeys(l))`: deduplicate keeping the first occurrence of each element. -/
def dedup_first (l : List String) : List String :=
  l.foldl dedup_step []

/-! ## Link state store (src/link_database.py)

One row of the `crawled_links` table.  `status` is a SQL TEXT column, so it is
modelled as `String` (nothing in the schema restricts it to the three expected
values; the operations do).  Timestamps are abstract `Nat` ticks supplied by
the caller in place of `CURRENT_TIMESTAMP`; the filesystem is an oracle
`fs : String → Option Nat` giving the byte size of each existing file
(`os.path.exists` + `os.path.getsize`). -/

structure LinkRecord where
  url : String
  title : Option String
  status : String
  discoveredAt : Nat
  crawledAt : Option Nat
  errorMessage : Option String
  markdownPath : Option String
  htmlPath : Option String
  fileSize : Option Nat
  contentType : Option String
deriving DecidableEq, Repr, Inhabited

/-- The table: rows in insertion (rowid) order.  `url` uniqueness is maintained
by `record_link_discovered` (the only INSERT path, `INSERT OR IGNORE` against
the UNIQUE constraint). -/
abbrev Store := List LinkRecord

/-- `LinkDatabase.record_link_discovered`: `INSERT OR IGNORE` of a pending row;
returns whether a row was inserted (`cursor.rowcount > 0`). -/
def record_link_discovered (s : Store) (url : String) (title : Option String)
    (now : Nat) : Store × Bool :=
  if s.any (fun r => r.url = url) then (s, false)
  else (s ++ [{ url := url, title := title, status := "pending", discoveredAt := now,
                crawledAt := none, errorMessage := none, markdownPath := none,
                htmlPath := none, fileSize := none, contentType := none }], true)

/-- Size of the file at an optional path: `p and os.path.exists(p)` guard, then
`os.path.getsize(p)` (a falsy — empty — path fails the guard). -/
def existing_size (fs : String → Option Nat) : Option String → Option Nat
  | some p => if p = "" then none else fs p
  | none => none

/-- The `file_size` computation of `update_link_success`:
markdown file size if that file exists, else html file size, else `0`. -/
def computed_file_size (fs : String → Option Nat) (md html : Option String) : Nat :=
  match existing_size fs md with
  | some n => n
  | none =>
    match existing_size fs html with
    | some n => n
    | none => 0

/-- `LinkDatabase.update_link_success`: UPDATE of the row with the given url,
setting status/success fields; `title = COALESCE(?, title)` keeps the old
title exactly when the incoming one is NULL.  Returns `rowcount > 0`. -/
def update_link_success (fs : String → Option Nat) (now : Nat) (url : String)
    (title markdown_path html_path : Option String) (content_type : String)
    (s : Store) : Store × Bool :=
  let file_size := computed_file_size fs markdown_path html_path
  (s.map (fun r =>
      if r.url = url then
        { r with status := "success",
                 title := (title.orElse (fun _ => r.title)),
                 crawledAt := some now,
                 markdownPath := markdown_path,
                 htmlPath := html_path,
                 fileSize := some file_size,
                 contentType := some content_type,
                 errorMessage := none }
      else r),
   s.any (fun r => r.url = url))

/-- `LinkDatabase.update_link_failed`: UPDATE to failed with the error text. -/
def update_link_failed (now : Nat) (url : String) (error_message : String)
    (s : Store) : Store × Bool :=
  (s.map (fun r =>
      if r.url = url then
        { r with status := "failed", crawledAt := some now,
                 errorMessage := some error_message }
      else r),
   s.any (fun r => r.url = url))

/-- Result of `LinkDatabase.get_crawl_statistics`. -/
structure CrawlStatistics where
  total : Nat
  pending : Nat
  success : Nat
  failed : Nat
deriving DecidableEq, Repr

/-- `LinkDatabase.get_crawl_statistics`: `GROUP BY status` counts; `total` is
the sum over all groups, i.e. the number of rows of the table. -/
def get_crawl_statistics (s : Store) : CrawlStatistics :=
  { total := s.length,
    pending := (s.filter (fun r => r.status = "pending")).length,
    success := (s.filter (fun r => r.status = "success")).length,
    failed := (s.filter (fun r => r.status = "failed")).length }

/-- `LinkDatabase.is_link_processed`: a row with this url and status success or failed. -/
def is_link_processed (s : Store) (url : String) : Bool :=
  s.any (fun r => r.url = url && (r.status = "success" || r.status = "failed"))

/-- `LinkDatabase.is_link_exists`: a row with this url, any status. -/
def is_link_exists (s : Store) (url : String) : Bool :=
  s.any (fun r => r.url = url)

/-- The per-url UPDATE of `retry_failed_links` (src/gradio_app.py):
back to pending, clearing `error_message` and `crawled_at`. -/
def reset_to_pending (u : String) (s : Store) : Store :=
  s.map (fun r =>
    if r.url = u then
      { r with status := "pending", errorMessage := none, crawledAt := none }
    else r)

/-- `retry_failed_links` (src/gradio_app.py): fetch every failed row, issue one
UPDATE per row, counting each; returns the new table and the count. -/
def retry_failed_links (s : Store) : Store × Nat :=
  let failed_urls := (s.filter (fun r => r.status = "failed")).map (fun r => r.url)
  (failed_urls.foldl (fun acc u => reset_to_pending u acc) s, failed_urls.length)

/-- `clear_all_links` (src/gradio_app.py), confirmed path: `DELETE FROM crawled_links`. -/
def clear_all_links (confirm : Bool) (s : Store) : Store :=
  if confirm then [] else s

/-- One store operation, for reasoning about arbitrary operation sequences. -/
inductive StoreOp where
  | recordDiscovered (url : String) (title : Option String) (now : Nat)
  | markSuccess (fs : String → Option Nat) (now : Nat) (url : String)
      (title md html : Option String) (ct : String)
  | markFailed (now : Nat) (url : String) (msg : String)
  | resetFailedToPending
  | clearAll

/-- Effect of one store operation on the table. -/
def applyOp (s : Store) : StoreOp → Store
  | .recordDiscovered u t now => (record_link_discovered s u t now).1
  | .markSuccess fs now u t md html ct => (update_link_success fs now u t md html ct s).1
  | .markFailed now u msg => (update_link_failed now u msg s).1
  | .resetFailedToPending => (retry_failed_links s).1
  | .clearAll => clear_all_links true s

/-! ### Store lemmas -/

/-- A status value the operations can produce. -/
def valid_status (r : LinkRecord) : Prop :=
  r.status = "pending" ∨ r.status = "success" ∨ r.status = "failed"

lemma valid_status_applyOp (s : Store) (op : StoreOp)
    (h : ∀ r ∈ s, valid_status r) : ∀ r ∈ applyOp s op, valid_status r := by
  cases op with
  | recordDiscovered u t now =>
    intro r hr
    simp only [applyOp, record_link_discovered] at hr
    split at hr
    · exact h r hr
    · rcases List.mem_append.1 hr with h1 | h1
      · exact h r h1
      · simp only [List.mem_singleton] at h1
        subst h1; left; rfl
  | markSuccess fs now u t md html ct =>
    intro r hr
    simp only [applyOp, update_link_success, List.mem_map] at hr
    obtain ⟨r0, hr0, heq⟩ := hr
    subst heq
    by_cases hc : r0.url = u
    · simp only [hc, if_pos rfl]; right; left; rfl
    · simp only [if_neg hc]; exact h r0 hr0
  | markFailed now u msg =>
    intro r hr
    simp only [applyOp, update_link_failed, List.mem_map] at hr
    obtain ⟨r0, hr0, heq⟩ := hr
    subst heq
    by_cases hc : r0.url = u
    · simp only [hc, if_pos rfl]; right; right; rfl
    · simp only [if_neg hc]; exact h r0 hr0
  | resetFailedToPending =>
    intro r hr
    simp only [applyOp, retry_failed_links] at hr
    revert hr
    generalize ((s.filter (fun r => r.status = "failed")).map (fun r => r.url)) = us
    induction us generalizing s with
    | nil => intro hr; exact h r hr
    | cons u us ih =>
      intro hr
      refine ih (reset_to_pending u s) ?_ hr
      intro r1 hr1
      simp only [reset_to_pending, List.mem_map] at hr1
      obtain ⟨r0, hr0, heq⟩ := hr1
      subst heq
      by_cases hc : r0.url = u
      · simp only [hc, if_pos rfl]; left; rfl
      · simp only [if_neg hc]; exact h r0 hr0
  | clearAll =>
    intro r hr
    simp only [applyOp, clear_all_links, if_pos] at hr
    exact absurd hr (List.not_mem_nil r)

lemma length_partition (s : Store) (h : ∀ r ∈ s, valid_status r) :
    s.length = (s.filter (fun r => r.status = "pending")).length
      + (s.filter (fun r => r.status = "success")).length
      + (s.filter (fun r => r.status = "failed")).length := by
  induction s with
  | nil => rfl
  | cons r rest ih =>
    have hrest := ih (fun r hr => h r (List.mem_cons_of_mem _ hr))
    have hr := h r (List.mem_cons_self r rest)
    rcases hr with hp | hs | hf
    · simp [List.filter_cons, hp]
      omega
    · simp [List.filter_cons, hs]
      omega
    · simp [List.filter_cons, hf]
      omega

lemma valid_status_run (ops : List StoreOp) :
    ∀ r ∈ ops.foldl applyOp ([] : Store), valid_status r := by
  have key : ∀ (ops : List StoreOp) (s : Store), (∀ r ∈ s, valid_status r) →
      ∀ r ∈ ops.foldl applyOp s, valid_status r := by
    intro ops
    induction ops with
    | nil => intro s hs; simpa using hs
    | cons op rest ih =>
      intro s hs
      simp only [List.foldl_cons]
      exact ih (applyOp s op) (valid_status_applyOp s op hs)
  exact key ops [] (by intro r hr; exact absurd hr (List.not_mem_nil r))

lemma getD_map_lt {α β : Type} (f : α → β) (l : List α) (i : Nat) (d : α) (e : β)
    (h : i < l.length) : (l.map f).getD i e = f (l.getD i d) := by
  induction l generalizing i with
  | nil => simp at h
  | cons a l ih =>
    cases i with
    | zero => rfl
    | succ n =>
      simp only [List.map_cons, List.getD_cons_succ]
      exact ih n (by simpa using h)

lemma getD_mem {α : Type} (l : List α) (i : Nat) (d : α) (h : i < l.length) :
    l.getD i d ∈ l := by
  induction l generalizing i with
  | nil => simp at h
  | cons a l ih =>
    cases i with
    | zero => exact List.mem_cons_self a l
    | succ n =>
      simp only [List.getD_cons_succ]
      exact List.mem_cons_of_mem a (ih n (by simpa using h))

/-- Characterisation of the `retry_failed_links` fold: one UPDATE per url in
`us`, applied in sequence, resets exactly the rows whose url is listed. -/
lemma retry_foldl_reset (us : List String) (s : Store) :
    us.foldl (fun acc u => reset_to_pending u acc) s
      = s.map (fun r =>
          if r.url ∈ us then
            { r with status := "pending", errorMessage := none, crawledAt := none }
          else r) := by
  induction us generalizing s with
  | nil => simp
  | cons u us ih =>
    simp only [List.foldl_cons]
    rw [ih (reset_to_pending u s)]
    simp only [reset_to_pending, List.map_map]
    refine List.map_congr_left ?_
    intro r _
    by_cases hru : r.url = u
    · simp [Function.comp, hru, List.mem_cons]
    · simp [Function.comp, hru, List.mem_cons]

/-- C1.  For every sequence of store operations starting from the empty store,
the statistics satisfy `total = pending + success + failed`: every row's status
is one of the three statuses, and the three counts partition the table.
(Every prefix of a sequence is itself a sequence, so this holds after every
operation.) -/
theorem C1_statistics_partition (ops : List StoreOp) :
    (get_crawl_statistics (ops.foldl applyOp [])).total
      = (get_crawl_statistics (ops.foldl applyOp [])).pending
        + (get_crawl_statistics (ops.foldl applyOp [])).success
        + (get_crawl_statistics (ops.foldl applyOp [])).failed := by
  exact length_partition _ (valid_status_run ops)

/-- C2.  Discovery is idempotent: a first call on an absent url inserts exactly
one pending record (all other fields empty) and returns `true`; a second call
on the same url changes nothing — every record, field for field, is as before —
and returns `false`. -/
theorem C2_record_discovered_idempotent (s : Store) (u : String)
    (t t2 : Option String) (n n2 : Nat) (habs : ∀ r ∈ s, r.url ≠ u) :
    record_link_discovered s u t n
      = (s ++ [{ url := u, title := t, status := "pending", discoveredAt := n,
                 crawledAt := none, errorMessage := none, markdownPath := none,
                 htmlPath := none, fileSize := none, contentType := none }], true)
    ∧ record_link_discovered (record_link_discovered s u t n).1 u t2 n2
      = ((record_link_discovered s u t n).1, false) := by
  have hany : s.any (fun r => r.url = u) = false := by
    simp only [List.any_eq_false, decide_eq_true_eq]
    exact habs
  have h1 : record_link_discovered s u t n
      = (s ++ [{ url := u, title := t, status := "pending", discoveredAt := n,
                 crawledAt := none, errorMessage := none, markdownPath := none,
                 htmlPath := none, fileSize := none, contentType := none }], true) := by
    simp [record_link_discovered, hany]
  refine ⟨h1, ?_⟩
  rw [h1]
  simp [record_link_discovered, List.any_append]

theorem C2_witness :
    (∀ r ∈ ([] : Store), r.url ≠ "http://a.com/") ∧
    (record_link_discovered [] "http://a.com/" none 0
      = ([{ url := "http://a.com/", title := none, status := "pending",
            discoveredAt := 0, crawledAt := none, errorMessage := none,
            markdownPath := none, htmlPath := none, fileSize := none,
            contentType := none }], true)
    ∧ record_link_discovered (record_link_discovered [] "http://a.com/" none 0).1
        "http://a.com/" none 1
      = ((record_link_discovered [] "http://a.com/" none 0).1, false)) :=
  ⟨by simp, C2_record_discovered_idempotent [] "http://a.com/" none none 0 1 (by simp)⟩

/-- The store used for the C3 counterexample: one pending record for url `"u"`
whose title is `some "old"`. -/
def c3_store : Store :=
  [{ url := "u", title := some "old", status := "pending", discoveredAt := 0,
     crawledAt := none, errorMessage := none, markdownPath := none,
     htmlPath := none, fileSize := none, contentType := none }]

/-- C3 counterexample.  The claim says `markSuccess` leaves the stored title
unchanged when the incoming title is not non-empty; but on an incoming title
`some ""` (empty, non-NULL), `COALESCE('', title)` overwrites the stored
`some "old"` with `some ""` — refuting the claim at this input. -/
theorem C3_counterexample_empty_title :
    ((update_link_success (fun _ => none) 1 "u" (some "") none none "markdown"
        c3_store).1.map (fun r => r.title) = [some ""])
    ∧ ¬ ((update_link_success (fun _ => none) 1 "u" (some "") none none "markdown"
        c3_store).1.map (fun r => r.title) = [some "old"]) := by
  constructor
  · rfl
  · decide

/-- C3 (amended).  `markSuccess` on the record with the given url sets
status to success, `crawledAt = now`, `errorMessage = null`, keeps the title
exactly when the incoming title is null (a present title — even an empty
string — overwrites), and sets fileSize to the size of the file at
markdownPath when that file exists, else at htmlPath when that file exists;
records with other urls are untouched, and the call returns false exactly when
no record exists for the url. -/
theorem C3_mark_success_fields (s : Store) (fs : String → Option Nat) (now : Nat)
    (u : String) (t md html : Option String) (ct : String) :
    ((update_link_success fs now u t md html ct s).2 = true ↔ ∃ r ∈ s, r.url = u)
    ∧ (update_link_success fs now u t md html ct s).1.length = s.length
    ∧ ∀ i, i < s.length →
        ((s.getD i default).url = u →
            ((update_link_success fs now u t md html ct s).1.getD i default).status = "success"
          ∧ ((update_link_success fs now u t md html ct s).1.getD i default).crawledAt = some now
          ∧ ((update_link_success fs now u t md html ct s).1.getD i default).errorMessage = none
          ∧ ((update_link_success fs now u t md html ct s).1.getD i default).title
              = (match t with | none => (s.getD i default).title | some v => some v)
          ∧ ((update_link_success fs now u t md html ct s).1.getD i default).fileSize
              = some (computed_file_size fs md html))
        ∧ ((s.getD i default).url ≠ u →
            (update_link_success fs now u t md html ct s).1.getD i default
              = s.getD i default) := by
  refine ⟨?_, ?_, ?_⟩
  · simp [update_link_success, List.any_eq_true]
  · simp [update_link_success]
  · intro i hi
    have hmap : (update_link_success fs now u t md html ct s).1.getD i default
        = (if (s.getD i default).url = u then
            { s.getD i default with
                     status := "success",
                     title := (t.orElse (fun _ => (s.getD i default).title)),
                     crawledAt := some now,
                     markdownPath := md,
                     htmlPath := html,
                     fileSize := some (computed_file_size fs md html),
                     contentType := some ct,
                     errorMessage := none }
          else s.getD i default) :=
      getD_map_lt _ s i default default hi
    constructor
    · intro hu
      rw [hmap, if_pos hu]
      refine ⟨rfl, rfl, rfl, ?_, rfl⟩
      cases t <;> rfl
    · intro hu
      rw [hmap, if_neg hu]

theorem C3_witness :
    (0 < c3_store.length)
    ∧ ((c3_store.getD 0 default).url = "u" →
          ((update_link_success (fun _ => none) 7 "u" none (some "a.md") none
              "markdown" c3_store).1.getD 0 default).status = "success"
        ∧ ((update_link_success (fun _ => none) 7 "u" none (some "a.md") none
              "markdown" c3_store).1.getD 0 default).crawledAt = some 7
        ∧ ((update_link_success (fun _ => none) 7 "u" none (some "a.md") none
              "markdown" c3_store).1.getD 0 default).errorMessage = none
        ∧ ((update_link_success (fun _ => none) 7 "u" none (some "a.md") none
              "markdown" c3_store).1.getD 0 default).title
            = (match (none : Option String) with
               | none => (c3_store.getD 0 default).title | some v => some v)
        ∧ ((update_link_success (fun _ => none) 7 "u" none (some "a.md") none
              "markdown" c3_store).1.getD 0 default).fileSize
            = some (computed_file_size (fun _ => none) (some "a.md") none)) :=
  ⟨by decide,
   ((C3_mark_success_fields c3_store (fun _ => none) 7 "u" none (some "a.md") none
      "markdown").2.2 0 (by decide)).1⟩

/-- C4.  `markFailed(u, "timeout")` on a pending record yields status failed,
`errorMessage = some "timeout"` and a non-null `crawledAt`; a subsequent
`resetFailedToPending` (src/gradio_app.py `retry_failed_links`) turns every
failed record back to pending with `errorMessage` and `crawledAt` cleared, and
returns the number of failed records. -/
theorem C4_mark_failed_then_reset (s : Store) (u : String) (now : Nat) (i : Nat)
    (hi : i < s.length) (hurl : (s.getD i default).url = u)
    (hpend : (s.getD i default).status = "pending") :
    (((update_link_failed now u "timeout" s).1.getD i default).status = "failed"
      ∧ ((update_link_failed now u "timeout" s).1.getD i default).errorMessage
          = some "timeout"
      ∧ ((update_link_failed now u "timeout" s).1.getD i default).crawledAt = some now)
    ∧ (retry_failed_links (update_link_failed now u "timeout" s).1).2
        = (((update_link_failed now u "timeout" s).1.filter
            (fun r => r.status = "failed")).length)
    ∧ ∀ j, j < (update_link_failed now u "timeout" s).1.length →
        ((update_link_failed now u "timeout" s).1.getD j default).status = "failed" →
          ((retry_failed_links (update_link_failed now u "timeout" s).1).1.getD j
              default).status = "pending"
        ∧ ((retry_failed_links (update_link_failed now u "timeout" s).1).1.getD j
              default).errorMessage = none
        ∧ ((retry_failed_links (update_link_failed now u "timeout" s).1).1.getD j
              default).crawledAt = none := by
  have hmap : ∀ j, j < s.length →
      (update_link_failed now u "timeout" s).1.getD j default
        = (if (s.getD j default).url = u then
            { s.getD j default with
                status := "failed", crawledAt := some now,
                errorMessage := some "timeout" }
          else s.getD j default) := by
    intro j hj
    exact getD_map_lt _ s j default default hj
  refine ⟨?_, ?_, ?_⟩
  · rw [hmap i hi, if_pos hurl]
    exact ⟨rfl, rfl, rfl⟩
  · simp [retry_failed_links]
  · intro j hj hfail
    have hjlen : j < s.length := by
      simpa [update_link_failed] using hj
    set s1 := (update_link_failed now u "timeout" s).1 with hs1
    have hchar : (retry_failed_links s1).1
        = s1.map (fun r =>
            if r.url ∈ (s1.filter (fun r => r.status = "failed")).map (fun r => r.url)
            then { r with status := "pending", errorMessage := none, crawledAt := none }
            else r) := by
      simp only [retry_failed_links]
      exact retry_foldl_reset _ s1
    have hjlen1 : j < s1.length := hj
    have hget : (retry_failed_links s1).1.getD j default
        = (if (s1.getD j default).url
              ∈ (s1.filter (fun r => r.status = "failed")).map (fun r => r.url)
           then { s1.getD j default with
                    status := "pending", errorMessage := none,
                    crawledAt := none }
           else s1.getD j default) := by
      rw [hchar]
      exact getD_map_lt _ s1 j default default hjlen1
    have hmem : (s1.getD j default).url
        ∈ (s1.filter (fun r => r.status = "failed")).map (fun r => r.url) := by
      refine List.mem_map.2 ⟨s1.getD j default, ?_, rfl⟩
      refine List.mem_filter.2 ⟨getD_mem s1 j default hjlen1, ?_⟩
      simpa using hfail
    rw [hget, if_pos hmem]
    exact ⟨rfl, rfl, rfl⟩

theorem C4_witness :
    (0 < c3_store.length)
    ∧ ((c3_store.getD 0 default).url = "u")
    ∧ ((c3_store.getD 0 default).status = "pending")
    ∧ ((((update_link_failed 5 "u" "timeout" c3_store).1.getD 0 default).status = "failed"
      ∧ ((update_link_failed 5 "u" "timeout" c3_store).1.getD 0 default).errorMessage
          = some "timeout"
      ∧ ((update_link_failed 5 "u" "timeout" c3_store).1.getD 0 default).crawledAt = some 5)) :=
  ⟨by decide, by decide, by decide,
   (C4_mark_failed_then_reset c3_store "u" 5 0 (by decide) (by decide) (by decide)).1⟩

/-- C10.  `markSuccess` unconditionally overwrites `markdownPath` and
`htmlPath` with the given arguments (an omitted path is stored as null,
clearing any previous path); the stored title is preserved exactly when the
incoming title is null; and when neither given path names an existing file,
`fileSize` becomes `some 0`, not null. -/
theorem C10_mark_success_frame (s : Store) (fs : String → Option Nat) (now : Nat)
    (u : String) (t md html : Option String) (ct : String) :
    ∀ i, i < s.length → (s.getD i default).url = u →
      ((update_link_success fs now u t md html ct s).1.getD i default).markdownPath = md
      ∧ ((update_link_success fs now u t md html ct s).1.getD i default).htmlPath = html
      ∧ (t = none →
          ((update_link_success fs now u t md html ct s).1.getD i default).title
            = (s.getD i default).title)
      ∧ (∀ v, t = some v →
          ((update_link_success fs now u t md html ct s).1.getD i default).title = some v)
      ∧ (existing_size fs md = none → existing_size fs html = none →
          ((update_link_success fs now u t md html ct s).1.getD i default).fileSize
            = some 0) := by
  intro i hi hurl
  have hmap : (update_link_success fs now u t md html ct s).1.getD i default
      = (fun r =>
          if r.url = u then
            { r with status := "success",
                     title := (t.orElse (fun _ => r.title)),
                     crawledAt := some now,
                     markdownPath := md,
                     htmlPath := html,
                     fileSize := some (computed_file_size fs md html),
                     contentType := some ct,
                     errorMessage := none }
          else r) (s.getD i default) :=
    getD_map_lt _ s i default default hi
  rw [hmap]
  simp only [hurl, if_pos rfl]
  refine ⟨rfl, rfl, ?_, ?_, ?_⟩
  · intro ht; subst ht; rfl
  · intro v hv; subst hv; rfl
  · intro hmd hhtml
    simp [computed_file_size, hmd, hhtml]

theorem C10_witness :
    (0 < c3_store.length)
    ∧ ((c3_store.getD 0 default).url = "u")
    ∧ (((update_link_success (fun _ => none) 3 "u" none none none "placeholder"
          c3_store).1.getD 0 default).markdownPath = none
      ∧ ((update_link_success (fun _ => none) 3 "u" none none none "placeholder"
          c3_store).1.getD 0 default).htmlPath = none
      ∧ ((none : Option String) = none →
          ((update_link_success (fun _ => none) 3 "u" none none none "placeholder"
            c3_store).1.getD 0 default).title = (c3_store.getD 0 default).title)
      ∧ (∀ v, (none : Option String) = some v →
          ((update_link_success (fun _ => none) 3 "u" none none none "placeholder"
            c3_store).1.getD 0 default).title = some v)
      ∧ (existing_size (fun _ => none) (none : Option String) = none →
          existing_size (fun _ => none) (none : Option String) = none →
          ((update_link_success (fun _ => none) 3 "u" none none none "placeholder"
            c3_store).1.getD 0 default).fileSize = some 0)) :=
  ⟨by decide, by decide,
   C10_mark_success_frame c3_store (fun _ => none) 3 "u" none none none
     "placeholder" 0 (by decide) (by decide)⟩

/-! ## Link extractor & filter (src/gradio_app.py)

`extract_links_from_content` uses two `re` patterns over the markdown text,
`\[[^\]]*\]\((https?://[^\s)]+)\)` and `(https?://[^\s)]+)`, scanned with
`finditer` (leftmost, non-overlapping).  Both patterns are deterministic
(each repeated character class excludes its follow character), so `finditer`
is faithfully a left-to-right scan: try a match at the current position,
emit the captured group and resume after the match, else advance one
character. -/

/-- Python `str.startswith`. -/
def py_startswith (s pre : String) : Bool :=
  list_starts pre.toList s.toList

/-- The regex character class `[^\s)]`: not whitespace, not `)`. -/
def body_char (c : Char) : Bool :=
  ¬ py_space c && ¬ (c = ')')

/-- Match `https?://` at the start of `cs`; return the scheme and the rest. -/
def match_scheme (cs : List Char) : Option (List Char × List Char) :=
  if list_starts "http://".toList cs then some ("http://".toList, cs.drop 7)
  else if list_starts "https://".toList cs then some ("https://".toList, cs.drop 8)
  else none

/-- Match `https?://[^\s)]+` at the start of `cs`; return (match, rest). -/
def match_url_at (cs : List Char) : Option (List Char × List Char) :=
  match match_scheme cs with
  | none => none
  | some (scheme, rest) =>
    let body := rest.takeWhile body_char
    if body.isEmpty then none
    else some (scheme ++ body, rest.drop body.length)

/-- Match `\[[^\]]*\]\((https?://[^\s)]+)\)` at the start of `cs`;
return (captured group 1, rest after the closing parenthesis). -/
def match_md_link_at (cs : List Char) : Option (List Char × List Char) :=
  match cs with
  | '[' :: cs1 =>
    let label := cs1.takeWhile (fun c => ¬ (c = ']'))
    match cs1.drop label.length with
    | ']' :: '(' :: cs2 =>
      (match match_url_at cs2 with
       | some (grp, rest2) =>
         (match rest2 with
          | ')' :: rest3 => some (grp, rest3)
          | _ => none)
       | none => none)
    | _ => none
  | _ => none

/-- `finditer` of the markdown-link pattern (fuel-indexed scan). -/
def finditer_md : Nat → List Char → List String
  | 0, _ => []
  | _, [] => []
  | fuel + 1, c :: cs =>
    match match_md_link_at (c :: cs) with
    | some (grp, rest) => String.mk grp :: finditer_md fuel rest
    | none => finditer_md fuel cs

/-- `finditer` of the bare-URL pattern (fuel-indexed scan). -/
def finditer_bare : Nat → List Char → List String
  | 0, _ => []
  | _, [] => []
  | fuel + 1, c :: cs =>
    match match_url_at (c :: cs) with
    | some (grp, rest) => String.mk grp :: finditer_bare fuel rest
    | none => finditer_bare fuel cs

/-- The markdown-sourced candidates: `[text](url)` targets first, then bare
URLs, each with the fragment stripped (`if markdown_text:` guard included). -/
def md_candidates (markdown_text : String) : List String :=
  if markdown_text = "" then []
  else
    (finditer_md markdown_text.toList.length markdown_text.toList).map drop_fragment
    ++ (finditer_bare markdown_text.toList.length markdown_text.toList).map drop_fragment

/-- The HTML-sourced candidates.  The source walks BeautifulSoup's anchor
elements; that external collaborator is abstracted as the list `hrefs` of
anchor `href` attribute values in document order (an empty or anchor-free
html yields `[]`).  Only absolute http/https values are kept, fragments
stripped. -/
def html_candidates (hrefs : List String) : List String :=
  (hrefs.filter (fun h => py_startswith h "http://" || py_startswith h "https://")).map
    drop_fragment

/-- `CrawlerManager.extract_links_from_content`: markdown candidates, then
HTML candidates, deduplicated keeping first occurrences
(`list(dict.fromkeys(all_links))`). -/
def extract_links_from_content (markdown_text : String) (html_hrefs : List String) :
    List String :=
  dedup_first (md_candidates markdown_text ++ html_candidates html_hrefs)

lemma foldl_dedup_mem (l acc : List String) (u : String) :
    u ∈ l.foldl dedup_step acc ↔ u ∈ acc ∨ u ∈ l := by
  induction l generalizing acc with
  | nil => simp
  | cons a l ih =>
    simp only [List.foldl_cons, ih, dedup_step]
    by_cases h : a ∈ acc
    · rw [if_pos h]
      constructor
      · rintro (h1 | h1)
        · exact Or.inl h1
        · exact Or.inr (List.mem_cons_of_mem a h1)
      · rintro (h1 | h1)
        · exact Or.inl h1
        · rcases List.mem_cons.1 h1 with h2 | h2
          · exact Or.inl (h2 ▸ h)
          · exact Or.inr h2
    · rw [if_neg h]
      constructor
      · rintro (h1 | h1)
        · rcases List.mem_append.1 h1 with h2 | h2
          · exact Or.inl h2
          · simp only [List.mem_singleton] at h2
            exact Or.inr (h2 ▸ List.mem_cons_self a l)
        · exact Or.inr (List.mem_cons_of_mem a h1)
      · rintro (h1 | h1)
        · exact Or.inl (List.mem_append_left _ h1)
        · rcases List.mem_cons.1 h1 with h2 | h2
          · exact Or.inl (List.mem_append_right _ (by simp [h2]))
          · exact Or.inr h2

lemma foldl_dedup_nodup (l acc : List String) (hacc : acc.Nodup) :
    (l.foldl dedup_step acc).Nodup := by
  induction l generalizing acc with
  | nil => simpa using hacc
  | cons a l ih =>
    simp only [List.foldl_cons, dedup_step]
    by_cases h : a ∈ acc
    · rw [if_pos h]; exact ih acc hacc
    · rw [if_neg h]
      refine ih (acc ++ [a]) ?_
      refine List.Nodup.append hacc (List.nodup_singleton a) ?_
      intro x hx hxa
      simp only [List.mem_singleton] at hxa
      exact h (hxa ▸ hx)

lemma foldl_dedup_extend (l acc : List String) :
    ∃ t, l.foldl dedup_step acc = acc ++ t ∧ ∀ v ∈ t, v ∉ acc := by
  induction l generalizing acc with
  | nil => exact ⟨[], by simp, by simp⟩
  | cons a l ih =>
    by_cases h : a ∈ acc
    · simp only [List.foldl_cons, dedup_step, if_pos h]
      exact ih acc
    · obtain ⟨t, ht, hv⟩ := ih (acc ++ [a])
      refine ⟨a :: t, ?_, ?_⟩
      · simp only [List.foldl_cons, dedup_step, if_neg h]
        rw [ht, List.append_assoc]
        rfl
      · intro v hvm
        rcases List.mem_cons.1 hvm with h2 | h2
        · exact h2 ▸ h
        · intro hva
          exact hv v h2 (List.mem_append_left _ hva)

lemma mem_dedup_first (l : List String) (u : String) :
    u ∈ dedup_first l ↔ u ∈ l := by
  unfold dedup_first
  rw [foldl_dedup_mem]
  simp

lemma nodup_dedup_first (l : List String) : (dedup_first l).Nodup :=
  foldl_dedup_nodup l [] List.nodup_nil

lemma no_hash_drop_fragment (v : String) (c : Char) (hc : c ∈ (drop_fragment v).toList) :
    ¬ (c = '#') := by
  simp only [drop_fragment] at hc
  have : c ∈ v.toList.takeWhile (fun c => ¬ (c = '#')) := hc
  have h2 := List.mem_takeWhile_imp this
  simpa using h2

lemma extract_is_dropped (md : String) (hrefs : List String) (u : String)
    (h : u ∈ md_candidates md ++ html_candidates hrefs) :
    ∃ v, u = drop_fragment v := by
  rcases List.mem_append.1 h with h1 | h1
  · unfold md_candidates at h1
    split at h1
    · exact absurd h1 (List.not_mem_nil u)
    · rcases List.mem_append.1 h1 with h2 | h2
      · obtain ⟨v, _, hveq⟩ := List.mem_map.1 h2
        exact ⟨v, hveq.symm⟩
      · obtain ⟨v, _, hveq⟩ := List.mem_map.1 h2
        exact ⟨v, hveq.symm⟩
  · obtain ⟨v, _, hveq⟩ := List.mem_map.1 h1
    exact ⟨v, hveq.symm⟩

/-- C5.  The extractor: on the markdown input of the claim (no HTML) it
returns exactly `["http://x.com/p", "http://y.com/q"]`; in general the result
is duplicate-free, contains exactly the (fragment-stripped) markdown and HTML
candidates, contains no `#` character anywhere, and lists the deduplicated
markdown-sourced links as a prefix, before every link that is HTML-only. -/
theorem C5_extract_links :
    (extract_links_from_content
        "[a](http://x.com/p#frag) see http://y.com/q and http://x.com/p" []
      = ["http://x.com/p", "http://y.com/q"])
    ∧ (∀ md hrefs, (extract_links_from_content md hrefs).Nodup)
    ∧ (∀ md hrefs u, u ∈ extract_links_from_content md hrefs ↔
        u ∈ md_candidates md ++ html_candidates hrefs)
    ∧ (∀ md hrefs u c, u ∈ extract_links_from_content md hrefs →
        c ∈ u.toList → ¬ (c = '#'))
    ∧ (∀ md hrefs, ∃ t, extract_links_from_content md hrefs
        = dedup_first (md_candidates md) ++ t
        ∧ ∀ v ∈ t, v ∉ md_candidates md) := by
  refine ⟨?_, ?_, ?_, ?_, ?_⟩
  · decide
  · intro md hrefs
    exact nodup_dedup_first _
  · intro md hrefs u
    exact mem_dedup_first _ u
  · intro md hrefs u c hu hc
    have hmem := (mem_dedup_first _ u).1 hu
    obtain ⟨v, rfl⟩ := extract_is_dropped md hrefs u hmem
    exact no_hash_drop_fragment v c hc
  · intro md hrefs
    unfold extract_links_from_content dedup_first
    rw [List.foldl_append]
    obtain ⟨t, ht, hv⟩ :=
      foldl_dedup_extend (html_candidates hrefs) ((md_candidates md).foldl dedup_step [])
    refine ⟨t, ht, ?_⟩
    intro v hvt hvmd
    exact hv v hvt ((foldl_dedup_mem _ _ v).2 (Or.inr hvmd))

theorem C5_witness :
    ¬ ('h' = '#') :=
  C5_extract_links.2.2.2.1
    "[a](http://x.com/p#frag) see http://y.com/q and http://x.com/p" []
    "http://x.com/p" 'h' (by decide) (by decide)

/-- The keyword tokens of a filter spec:
`[keyword.strip().lower() for keyword in filter_text.split(',') if keyword.strip()]`. -/
def keywords_of (filter_text : String) : List String :=
  ((((split_comma filter_text.toList).map (fun g => py_strip (String.mk g))).filter
      (fun k => ¬ (k = ""))).map py_lower)

/-- `filter_links` (src/gradio_app.py): keep a link iff every keyword is a
substring of the lower-cased link; an empty or whitespace-only spec keeps all. -/
def filter_links (links : List String) (filter_text : String) : List String :=
  if filter_text = "" ∨ py_strip filter_text = "" then links
  else links.filter (fun link =>
    (keywords_of filter_text).all (fun kw => py_in kw (py_lower link)))

/-- C6.  `filter_links` keeps a link iff every comma-separated keyword occurs
(case-insensitively) as a substring of the lower-cased URL — AND semantics;
an empty or whitespace-only spec returns the list unchanged; and the two
concrete examples of the claim. -/
theorem C6_filter_links :
    (∀ (links : List String) (ft : String), py_strip ft = "" →
        filter_links links ft = links)
    ∧ (∀ (links : List String) (ft l : String),
        ¬ (ft = "" ∨ py_strip ft = "") →
        (l ∈ filter_links links ft ↔
          l ∈ links ∧ ∀ kw ∈ keywords_of ft, py_in kw (py_lower l) = true))
    ∧ (filter_links ["http://a.com/news/1", "http://a.com/blog/2"] "news"
        = ["http://a.com/news/1"])
    ∧ (filter_links ["http://a.com/news/1", "http://a.com/blog/2"] "news,2024"
        = []) := by
  refine ⟨?_, ?_, ?_, ?_⟩
  · intro links ft h
    rw [filter_links, if_pos (Or.inr h)]
  · intro links ft l h
    rw [filter_links, if_neg h]
    simp [List.mem_filter, List.all_eq_true]
  · decide
  · decide

theorem C6_witness :
    (filter_links ["http://a.com/x"] "   " = ["http://a.com/x"])
    ∧ ("http://a.com/x" ∈ filter_links ["http://a.com/x"] "x" ↔
        "http://a.com/x" ∈ ["http://a.com/x"]
        ∧ ∀ kw ∈ keywords_of "x", py_in kw (py_lower "http://a.com/x") = true) :=
  ⟨C6_filter_links.1 ["http://a.com/x"] "   " (by decide),
   C6_filter_links.2.1 ["http://a.com/x"] "x" "http://a.com/x" (by decide)⟩

/-! ## Crawl frontier orchestrator (src/gradio_app.py, `CrawlerManager`)

The external page fetcher (crawl4ai's `arun`), title extraction and the path
mapper together supply everything `crawl_single_url` derives from a fetched
page; that collaborator boundary is the `PageResult` oracle below.  An
exception anywhere in the per-url `try` block is `Except.error msg`
(→ `update_link_failed msg`). -/

/-- `get_domain_without_www` (src/gradio_app.py): strip one leading `www.`. -/
def get_domain_without_www (domain : String) : String :=
  if domain = "" then ""
  else if py_startswith domain "www." then String.mk (domain.toList.drop 4)
  else domain

/-- `urlparse(url).netloc` (external stdlib collaborator) for the absolute
http/https URLs the crawler handles: the text between `scheme://` and the
next `/`. -/
def url_netloc (url : String) : String :=
  if py_startswith url "http://" then
    String.mk ((url.toList.drop 7).takeWhile (fun c => ¬ (c = '/')))
  else if py_startswith url "https://" then
    String.mk ((url.toList.drop 8).takeWhile (fun c => ¬ (c = '/')))
  else ""

/-- What one fetched page yields through the external collaborators: resolved
title, save paths, chosen contentType, and the candidate links that
`extract_links_from_content` produces on the page's content (a contentless
placeholder page has `links = []`). -/
structure PageResult where
  title : Option String
  md_path : Option String
  html_path : Option String
  content_type : String
  links : List String

/-- External collaborators and parameters of one crawl run.  `stop_at` is the
index of the loop iteration during whose body `stop_crawling` is invoked
(setting `is_running = False`), if any. -/
structure CrawlConfig where
  fetch : String → Except String PageResult
  fsz : String → Option Nat
  netloc : String → String
  max_depth : Nat
  stop_at : Option Nat

/-- `CrawlerManager.crawl_single_url`: skip an already-processed url (unless
`skip_processed_check`); on a fetch error record failure; otherwise record
success, then filter the extracted candidates (when a non-blank filter is set)
and keep those not yet in the database.  Returns the updated store, the
success flag, the new links, and the trace of `markSuccess` (`(url, true)`) /
`markFailed` (`(url, false)`) calls. -/
def crawl_single_url (cfg : CrawlConfig) (now : Nat) (db : Store) (url : String)
    (link_filters : String) (skip_processed_check : Bool) :
    Store × Bool × List String × List (String × Bool) :=
  if (!skip_processed_check && is_link_processed db url) = true then
    (db, true, [], [])
  else
    match cfg.fetch url with
    | Except.error msg =>
      ((update_link_failed now url msg db).1, false, [], [(url, false)])
    | Except.ok page =>
      let db2 := (update_link_success cfg.fsz now url page.title page.md_path
        page.html_path page.content_type db).1
      let extracted :=
        if ¬ (link_filters = "") ∧ ¬ (py_strip link_filters = "") then
          filter_links page.links link_filters
        else page.links
      let new_links :=
        if page.links = [] then []
        else extracted.filter (fun u => is_link_exists db2 u = false)
      (db2, true, new_links, [(url, true)])

/-- `CrawlerManager.is_url_in_queue`. -/
def is_url_in_queue (queue : List (String × Nat)) (url : String) : Bool :=
  queue.any (fun p => p.1 = url)

/-- The enqueue loop of `crawl_from_url`: each new url not already queued is
appended at the back at the given depth and recorded as discovered; `enq` is
the ghost trace of every url ever placed on the queue. -/
def enqueue_new (now depth1 : Nat) :
    Store → List (String × Nat) → List String → List String →
      Store × List (String × Nat) × List String
  | db, q, enq, [] => (db, q, enq)
  | db, q, enq, u :: us =>
    if is_url_in_queue q u then enqueue_new now depth1 db q enq us
    else enqueue_new now depth1 (record_link_discovered db u none now).1
      (q ++ [(u, depth1)]) (enq ++ [u]) us

/-- The state of one crawl run.  `queue`, `db`, `link_filters`, `running`
mirror the source's variables; `processed`, `enqueued`, `filters_used` and
`outcomes` are ghost traces of the urls dequeued, every url ever enqueued,
the effective filter used at each iteration, and the store outcome calls. -/
structure CrawlState where
  queue : List (String × Nat)
  db : Store
  link_filters : String
  running : Bool
  processed : List String
  enqueued : List String
  filters_used : List String
  outcomes : List (String × Bool)
  clock : Nat
deriving DecidableEq, Repr

/-- The domain-anchoring step: `if domain_variants not in link_filters:
link_filters = link_filters + "," + domain_variants`. -/
def add_domain (link_filters dv : String) : String :=
  if py_in dv link_filters then link_filters else link_filters ++ "," ++ dv

/-- One iteration of the `while crawl_queue and self.is_running` loop of
`CrawlerManager.crawl_from_url`: pop the front entry, fold the current host
into the filter, process the url, and (on success below `max_depth`) enqueue
the new links at depth+1.  A stop request arriving during this iteration
(`cfg.stop_at = some iter`) lands at the end of the body — the body itself
never reads `is_running`, so the request is only observed at the next loop
condition check. -/
def crawl_step (cfg : CrawlConfig) (iter : Nat) (s : CrawlState) : CrawlState :=
  match s.queue with
  | [] => s
  | (current_url, current_depth) :: rest =>
    let dv := get_domain_without_www (cfg.netloc current_url)
    let filters := add_domain s.link_filters dv
    let res := crawl_single_url cfg s.clock s.db current_url filters
      (current_depth == 0)
    let next :=
      if res.2.1 = true ∧ current_depth < cfg.max_depth ∧ ¬ (res.2.2.1 = []) then
        enqueue_new s.clock (current_depth + 1) res.1 rest s.enqueued res.2.2.1
      else (res.1, rest, s.enqueued)
    { queue := next.2.1,
      db := next.1,
      link_filters := filters,
      running := if cfg.stop_at = some iter then false else s.running,
      processed := s.processed ++ [current_url],
      enqueued := next.2.2,
      filters_used := s.filters_used ++ [filters],
      outcomes := s.outcomes ++ res.2.2.2,
      clock := s.clock + 1 }

/-- The crawl loop (fuel-indexed recursion; the source loop runs while the
queue is non-empty and no stop has been observed). -/
def crawl_loop (cfg : CrawlConfig) : Nat → Nat → CrawlState → CrawlState
  | 0, _, s => s
  | fuel + 1, iter, s =>
    if ¬ (s.queue = []) ∧ s.running = true then
      crawl_loop cfg fuel (iter + 1) (crawl_step cfg iter s)
    else s

/-- Insert a record into a list sorted by `discoveredAt` descending
(placed after all entries with a greater-or-equal key: stable). -/
def insert_desc (r : LinkRecord) : List LinkRecord → List LinkRecord
  | [] => [r]
  | x :: xs =>
    if r.discoveredAt ≤ x.discoveredAt then x :: insert_desc r xs
    else r :: x :: xs

/-- `LinkDatabase.get_links_by_status`: rows of the given status (all rows
when the status is blank), `ORDER BY discovered_at DESC`. -/
def get_links_by_status (s : Store) (status : String) : List LinkRecord :=
  if status = "" ∨ py_strip status = "" then s.foldr insert_desc []
  else (s.filter (fun r => r.status = status)).foldr insert_desc []

/-- The initial state of `CrawlerManager.crawl_from_url`: the frontier is the
currently pending records (each at depth 0), then the seed at depth 0; the
seed is recorded as discovered; `is_running` is set. -/
def crawl_init (start_url link_filters : String) (db0 : Store) : CrawlState :=
  let pending_urls := (get_links_by_status db0 "pending").map (fun r => r.url)
  { queue := pending_urls.map (fun u => (u, 0)) ++ [(start_url, 0)],
    db := (record_link_discovered db0 start_url none 0).1,
    link_filters := link_filters,
    running := true,
    processed := [],
    enqueued := pending_urls ++ [start_url],
    filters_used := [],
    outcomes := [],
    clock := 1 }

/-- `CrawlerManager.crawl_from_url`: initialise, run the loop, and (the
`finally:` block) clear `is_running`, returning the run to Idle. -/
def crawl_from_url (cfg : CrawlConfig) (fuel : Nat) (start_url link_filters : String)
    (db0 : Store) : CrawlState :=
  { crawl_loop cfg fuel 0 (crawl_init start_url link_filters db0) with
      running := false }

/-! ### Crawler lemmas and temporal claims -/

lemma crawl_loop_stopped (cfg : CrawlConfig) (fuel iter : Nat) (s : CrawlState)
    (h : s.running = false) : crawl_loop cfg fuel iter s = s := by
  cases fuel with
  | zero => rfl
  | succ n => simp [crawl_loop, h]

lemma crawl_single_url_marks (cfg : CrawlConfig) (now : Nat) (db : Store)
    (url lf : String) (skip : Bool) :
    ∀ p ∈ (crawl_single_url cfg now db url lf skip).2.2.2, p.1 = url := by
  intro p hp
  unfold crawl_single_url at hp
  split at hp
  · simp at hp
  · split at hp
    · simp only [List.mem_singleton] at hp
      rw [hp]
    · simp only [List.mem_singleton] at hp
      rw [hp]

lemma enqueue_new_extends (now dep : Nat) :
    ∀ (us : List String) (db : Store) (q : List (String × Nat)) (enq : List String),
      ∃ t, (enqueue_new now dep db q enq us).2.1 = q ++ t := by
  intro us
  induction us with
  | nil => intro db q enq; exact ⟨[], by simp [enqueue_new]⟩
  | cons u us ih =>
    intro db q enq
    by_cases h : is_url_in_queue q u = true
    · simp only [enqueue_new]
      rw [if_pos h]
      exact ih db q enq
    · simp only [enqueue_new]
      rw [if_neg h]
      obtain ⟨t, ht⟩ := ih (record_link_discovered db u none now).1
        (q ++ [(u, dep)]) (enq ++ [u])
      refine ⟨(u, dep) :: t, ?_⟩
      rw [ht, List.append_assoc]
      rfl

def c7_fetch : String → Except String PageResult :=
  fun u =>
    if u = "http://x.com/a" then
      Except.ok { title := none, md_path := none, html_path := none,
                  content_type := "markdown", links := ["http://x.com/b"] }
    else if u = "http://x.com/b" then
      Except.ok { title := none, md_path := none, html_path := none,
                  content_type := "markdown", links := ["http://x.com/c"] }
    else Except.error "unreachable"

/-- The C7 scenario: `maxDepth = 1`, the seed page yields L1
(`http://x.com/b`), the L1 page yields L2 (`http://x.com/c`), no stop. -/
def c7_cfg : CrawlConfig :=
  { fetch := c7_fetch, fsz := fun _ => none, netloc := url_netloc,
    max_depth := 1, stop_at := none }

/-- The finished C7 run from the seed `http://x.com/a` on an empty store. -/
def c7_run : CrawlState :=
  crawl_from_url c7_cfg 10 "http://x.com/a" "" []

set_option maxRecDepth 4000 in
/-- C7.  The frontier is strict FIFO — each iteration processes the front
entry and only ever appends to the back — and with `maxDepth = 1` a run on a
seed yielding L1, with L1 yielding L2, processes exactly the seed then L1;
L2 is never enqueued (the complete enqueue trace omits it), never recorded as
discovered, and never processed. -/
theorem C7_bfs_depth_bound :
    (∀ (cfg : CrawlConfig) (iter : Nat) (s : CrawlState) (u : String) (d : Nat)
        (rest : List (String × Nat)), s.queue = (u, d) :: rest →
        (crawl_step cfg iter s).processed = s.processed ++ [u]
        ∧ ∃ t, (crawl_step cfg iter s).queue = rest ++ t)
    ∧ c7_run.processed = ["http://x.com/a", "http://x.com/b"]
    ∧ c7_run.enqueued = ["http://x.com/a", "http://x.com/b"]
    ∧ c7_run.db.map (fun r => r.url) = ["http://x.com/a", "http://x.com/b"]
    ∧ is_link_exists c7_run.db "http://x.com/c" = false
    ∧ c7_run.queue = []
    ∧ c7_run.outcomes = [("http://x.com/a", true), ("http://x.com/b", true)] := by
  refine ⟨?_, by decide, by decide, by decide, by decide, by decide, by decide⟩
  intro cfg iter s u d rest hqe
  constructor
  · simp [crawl_step, hqe]
  · simp only [crawl_step, hqe]
    split
    · exact enqueue_new_extends _ _ _ _ _ _
    · exact ⟨[], by simp⟩

def c7w_state : CrawlState :=
  { queue := [("http://x.com/a", 0), ("http://z.com/q", 1)], db := [],
    link_filters := "", running := true, processed := [], enqueued := [],
    filters_used := [], outcomes := [], clock := 0 }

theorem C7_witness :
    (crawl_step c7_cfg 0 c7w_state).processed
        = c7w_state.processed ++ ["http://x.com/a"]
    ∧ ∃ t, (crawl_step c7_cfg 0 c7w_state).queue = [("http://z.com/q", 1)] ++ t :=
  C7_bfs_depth_bound.1 c7_cfg 0 c7w_state "http://x.com/a" 0
    [("http://z.com/q", 1)] rfl

/-- C8.  Cooperative stop: if a stop request arrives during iteration `i`
while the frontier is non-empty, the loop still completes that iteration —
the in-flight front url is processed, appended to the processed trace, and
any store outcome recorded in this iteration is for that url only — and then
halts: the very next condition check observes `is_running = False`, no
further iteration runs no matter the remaining fuel, no further
`markSuccess`/`markFailed` call is made, and the loop state is no longer
running. -/
theorem C8_stop_semantics (cfg : CrawlConfig) (s : CrawlState) (i fuel : Nat)
    (hrun : s.running = true) (hq : ¬ (s.queue = []))
    (hstop : cfg.stop_at = some i) :
    crawl_loop cfg (fuel + 1) i s = crawl_step cfg i s
    ∧ (crawl_step cfg i s).running = false
    ∧ (crawl_step cfg i s).processed = s.processed ++ [(s.queue.headD ("", 0)).1]
    ∧ (∃ m, (crawl_step cfg i s).outcomes = s.outcomes ++ m
        ∧ ∀ p ∈ m, p.1 = (s.queue.headD ("", 0)).1)
    ∧ ∀ fuel2 iter2, crawl_loop cfg fuel2 iter2 (crawl_step cfg i s)
        = crawl_step cfg i s := by
  obtain ⟨⟨u, d⟩, rest, hqe⟩ := List.exists_cons_of_ne_nil hq
  have hrunning : (crawl_step cfg i s).running = false := by
    simp [crawl_step, hqe, hstop]
  have hproc : (crawl_step cfg i s).processed = s.processed ++ [u] := by
    simp [crawl_step, hqe]
  have hout : (crawl_step cfg i s).outcomes
      = s.outcomes ++ (crawl_single_url cfg s.clock s.db u
          (add_domain s.link_filters (get_domain_without_www (cfg.netloc u)))
          (d == 0)).2.2.2 := by
    simp [crawl_step, hqe]
  have hhead : (s.queue.headD ("", 0)).1 = u := by rw [hqe]; rfl
  have hloop : crawl_loop cfg (fuel + 1) i s = crawl_step cfg i s := by
    show (if ¬ (s.queue = []) ∧ s.running = true then
        crawl_loop cfg fuel (i + 1) (crawl_step cfg i s) else s)
      = crawl_step cfg i s
    rw [if_pos ⟨hq, hrun⟩]
    exact crawl_loop_stopped cfg fuel (i + 1) _ hrunning
  refine ⟨hloop, hrunning, by rw [hproc, hhead], ?_, ?_⟩
  · refine ⟨_, hout, ?_⟩
    rw [hhead]
    exact crawl_single_url_marks cfg s.clock s.db u _ (d == 0)
  · intro fuel2 iter2
    exact crawl_loop_stopped cfg fuel2 iter2 _ hrunning

/-- A run whose fetcher always fails and whose stop request arrives during
iteration 0, with two entries on the frontier. -/
def c8_cfg : CrawlConfig :=
  { fetch := fun _ => Except.error "down", fsz := fun _ => none,
    netloc := url_netloc, max_depth := 1, stop_at := some 0 }

def c8_state : CrawlState :=
  { queue := [("http://x.com/a", 0), ("http://x.com/b", 0)], db := [],
    link_filters := "", running := true, processed := [], enqueued := [],
    filters_used := [], outcomes := [], clock := 0 }

theorem C8_witness :
    crawl_loop c8_cfg 4 0 c8_state = crawl_step c8_cfg 0 c8_state
    ∧ (crawl_step c8_cfg 0 c8_state).running = false
    ∧ (crawl_step c8_cfg 0 c8_state).processed
        = c8_state.processed ++ [(c8_state.queue.headD ("", 0)).1]
    ∧ (∃ m, (crawl_step c8_cfg 0 c8_state).outcomes = c8_state.outcomes ++ m
        ∧ ∀ p ∈ m, p.1 = (c8_state.queue.headD ("", 0)).1)
    ∧ ∀ fuel2 iter2, crawl_loop c8_cfg fuel2 iter2 (crawl_step c8_cfg 0 c8_state)
        = crawl_step c8_cfg 0 c8_state :=
  C8_stop_semantics c8_cfg c8_state 0 3 rfl (by decide) rfl

/-- The cumulative effective filters of a run: starting from `base`, each
processed url folds its www-stripped host in via `add_domain`; element `k`
is the filter in effect at iteration `k`. -/
def filters_trace (netloc : String → String) : String → List String → List String
  | _, [] => []
  | base, u :: us =>
    add_domain base (get_domain_without_www (netloc u))
      :: filters_trace netloc (add_domain base (get_domain_without_www (netloc u))) us

lemma add_domain_extends (f dv : String) : ∃ t, add_domain f dv = f ++ t := by
  unfold add_domain
  split
  · exact ⟨"", by simp⟩
  · exact ⟨"," ++ dv, by rw [String.append_assoc]⟩

lemma crawl_loop_filters (cfg : CrawlConfig) (fuel : Nat) :
    ∀ (iter : Nat) (s : CrawlState),
      ∃ d, (crawl_loop cfg fuel iter s).processed = s.processed ++ d
        ∧ (crawl_loop cfg fuel iter s).filters_used
            = s.filters_used ++ filters_trace cfg.netloc s.link_filters d := by
  induction fuel with
  | zero =>
    intro iter s
    exact ⟨[], by simp [crawl_loop], by simp [crawl_loop, filters_trace]⟩
  | succ n ih =>
    intro iter s
    by_cases hcond : ¬ (s.queue = []) ∧ s.running = true
    · obtain ⟨⟨u, d0⟩, rest, hqe⟩ := List.exists_cons_of_ne_nil hcond.1
      obtain ⟨d, hd1, hd2⟩ := ih (iter + 1) (crawl_step cfg iter s)
      have hloop : crawl_loop cfg (n + 1) iter s
          = crawl_loop cfg n (iter + 1) (crawl_step cfg iter s) := by
        show (if ¬ (s.queue = []) ∧ s.running = true then
            crawl_loop cfg n (iter + 1) (crawl_step cfg iter s) else s) = _
        rw [if_pos hcond]
      have hp : (crawl_step cfg iter s).processed = s.processed ++ [u] := by
        simp [crawl_step, hqe]
      have hf : (crawl_step cfg iter s).filters_used
          = s.filters_used
            ++ [add_domain s.link_filters (get_domain_without_www (cfg.netloc u))] := by
        simp [crawl_step, hqe]
      have hlf : (crawl_step cfg iter s).link_filters
          = add_domain s.link_filters (get_domain_without_www (cfg.netloc u)) := by
        simp [crawl_step, hqe]
      refine ⟨u :: d, ?_, ?_⟩
      · rw [hloop, hd1, hp, List.append_assoc]
        rfl
      · rw [hloop, hd2, hf, hlf, List.append_assoc]
        rw [filters_trace]
        rfl
    · have hloop : crawl_loop cfg (n + 1) iter s = s := by
        show (if ¬ (s.queue = []) ∧ s.running = true then
            crawl_loop cfg n (iter + 1) (crawl_step cfg iter s) else s) = s
        rw [if_neg hcond]
      exact ⟨[], by simp [hloop], by simp [hloop, filters_trace]⟩

lemma filters_trace_chain (nl : String → String) (us : List String) :
    ∀ (base : String) (k : Nat), k + 1 < (filters_trace nl base us).length →
      ∃ t, (filters_trace nl base us).getD (k + 1) ""
        = (filters_trace nl base us).getD k "" ++ t := by
  induction us with
  | nil => intro base k h; simp [filters_trace] at h
  | cons u us ih =>
    intro base k h
    cases k with
    | zero =>
      cases us with
      | nil => simp [filters_trace] at h
      | cons v vs =>
        simp only [filters_trace, List.getD_cons_succ, List.getD_cons_zero]
        exact add_domain_extends _ _
    | succ k2 =>
      simp only [filters_trace, List.getD_cons_succ]
      refine ih _ k2 ?_
      simpa [filters_trace] using h

/-- C9.  The effective filter grows monotonically across a run: the trace of
filters used, one per iteration, is exactly the cumulative fold of the
www-stripped hosts of the processed urls over the base filter (each appended
only when not already a substring); every `add_domain` step only extends the
string (never removes anything), so each iteration's filter extends the
previous one. -/
theorem C9_filter_monotonic :
    (∀ (cfg : CrawlConfig) (fuel : Nat) (start base : String) (db0 : Store),
        (crawl_from_url cfg fuel start base db0).filters_used
          = filters_trace cfg.netloc base
              (crawl_from_url cfg fuel start base db0).processed)
    ∧ (∀ f dv, ∃ t, add_domain f dv = f ++ t)
    ∧ (∀ (nl : String → String) (base : String) (us : List String) (k : Nat),
        k + 1 < (filters_trace nl base us).length →
        ∃ t, (filters_trace nl base us).getD (k + 1) ""
          = (filters_trace nl base us).getD k "" ++ t) := by
  refine ⟨?_, add_domain_extends, ?_⟩
  · intro cfg fuel start base db0
    obtain ⟨d, hd1, hd2⟩ := crawl_loop_filters cfg fuel 0 (crawl_init start base db0)
    have h1 : (crawl_from_url cfg fuel start base db0).processed
        = (crawl_loop cfg fuel 0 (crawl_init start base db0)).processed := rfl
    have h2 : (crawl_from_url cfg fuel start base db0).filters_used
        = (crawl_loop cfg fuel 0 (crawl_init start base db0)).filters_used := rfl
    rw [h1, h2, hd1, hd2]
    simp [crawl_init]
  · intro nl base us k h
    exact filters_trace_chain nl us base k h

def c9_cfg : CrawlConfig :=
  { fetch := fun _ => Except.error "offline", fsz := fun _ => none,
    netloc := url_netloc, max_depth := 2, stop_at := none }

theorem C9_witness :
    ((crawl_from_url c9_cfg 10 "http://x.com/a" "" []).filters_used
      = filters_trace c9_cfg.netloc ""
          (crawl_from_url c9_cfg 10 "http://x.com/a" "" []).processed)
    ∧ (∃ t, add_domain "" "x.com" = "" ++ t)
    ∧ (∃ t, (filters_trace url_netloc "" ["http://x.com/a", "http://y.com/b"]).getD 1 ""
        = (filters_trace url_netloc "" ["http://x.com/a", "http://y.com/b"]).getD 0 ""
          ++ t) :=
  ⟨C9_filter_monotonic.1 c9_cfg 10 "http://x.com/a" "" [],
   C9_filter_monotonic.2.1 "" "x.com",
   C9_filter_monotonic.2.2 url_netloc "" ["http://x.com/a", "http://y.com/b"] 0
     (by decide)⟩
